import Mathlib

/-!
Verification development for the azalea Minecraft client library.

Shallow embedding of the code under scrutiny:
* the pathfinder move generators and per-edge executors
  (azalea/src/pathfinder/moves/basic.rs)
* the brigadier builder forwarding (azalea-brigadier/src/builder/argument_builder.rs)
* the disconnect systems (azalea-client/src/disconnect.rs)
* the handshake / session-auth retry loop and client startup
  (azalea-client/src/client.rs)

Numeric conventions: Rust i32 values are modelled as Int, f64 and f32 values as
exact rationals (float literals are taken at face value; none of the verified
properties depends on rounding).  Square roots of f64 values are only ever
compared against the nonnegative representable constants 0.25 and 1.25 in the
source; those comparisons are modelled exactly on the squares (sqrt is
monotone), and bridging lemmas relate them to Real.sqrt.
-/

namespace Azalea

/-! ## Core geometry (azalea-core, not under src/) -/

/-- Modelled from the spec: integer block position (azalea-core BlockPos, i32 coords). -/
structure BlockPos where
  x : Int
  y : Int
  z : Int
deriving DecidableEq, Repr

/-- Modelled from the spec: double-precision position (azalea-core Vec3), with f64
modelled as an exact rational. -/
structure Vec3 where
  x : ℚ
  y : ℚ
  z : ℚ
deriving DecidableEq, Repr

instance : Add BlockPos := ⟨fun a b => ⟨a.x + b.x, a.y + b.y, a.z + b.z⟩⟩

/-- Modelled from the spec: BlockPos.up(n) adds n to the y coordinate. -/
def BlockPos.up (p : BlockPos) (n : Nat) : BlockPos := ⟨p.x, p.y + n, p.z⟩

/-- Modelled from the spec: BlockPos.down(n) subtracts n from the y coordinate. -/
def BlockPos.down (p : BlockPos) (n : Nat) : BlockPos := ⟨p.x, p.y - n, p.z⟩

/-- Modelled from the spec: the center of a block, offset by 0.5 on every axis. -/
def BlockPos.center (p : BlockPos) : Vec3 :=
  ⟨(p.x : ℚ) + 1/2, (p.y : ℚ) + 1/2, (p.z : ℚ) + 1/2⟩

/-- Modelled from the spec: BlockPos::from(Vec3) floors every coordinate. -/
def BlockPos.fromVec3 (v : Vec3) : BlockPos := ⟨⌊v.x⌋, ⌊v.y⌋, ⌊v.z⌋⟩

instance : Sub Vec3 := ⟨fun a b => ⟨a.x - b.x, a.y - b.y, a.z - b.z⟩⟩

/-- Modelled from the spec: squared horizontal (x/z) length of a Vec3. -/
def Vec3.horizontal_distance_sqr (v : Vec3) : ℚ := v.x * v.x + v.z * v.z

/-- Modelled from the spec: the four cardinal directions iterated by the move
generators (azalea-core CardinalDirection). -/
inductive CardinalDirection
  | north
  | east
  | south
  | west
deriving DecidableEq, Repr

/-- Modelled from the spec: x component of a cardinal direction. -/
def CardinalDirection.x : CardinalDirection → Int
  | .east => 1
  | .west => -1
  | _ => 0

/-- Modelled from the spec: z component of a cardinal direction. -/
def CardinalDirection.z : CardinalDirection → Int
  | .south => 1
  | .north => -1
  | _ => 0

/-- Modelled from the spec: clockwise rotation of a cardinal direction, used by
diagonal_move to pick the second adjacent cardinal. -/
def CardinalDirection.right : CardinalDirection → CardinalDirection
  | .north => .east
  | .east => .south
  | .south => .west
  | .west => .north

/-- Modelled from the spec: CardinalDirection::iter yields the four directions. -/
def CardinalDirection.iter : List CardinalDirection := [.north, .east, .south, .west]

/-! ## World model (azalea-world / pathfinder moves helpers, not under src/) -/

/-- Modelled from the spec: the voxel world, abstracted to the two block
predicates the move generators consult.  The spec defines passable as non-solid
and non-hazardous; a block may be neither passable nor solid (e.g. hazards), so
the two predicates are kept independent. -/
structure Instance where
  passableAt : BlockPos → Bool
  solidAt : BlockPos → Bool

/-- Modelled from the spec: whether the single block at the position is passable. -/
def is_block_passable (pos : BlockPos) (world : Instance) : Bool :=
  world.passableAt pos

/-- Modelled from the spec: whether the single block at the position is solid. -/
def is_block_solid (pos : BlockPos) (world : Instance) : Bool :=
  world.solidAt pos

/-- Modelled from the spec: whether a two-block-tall entity may occupy the
position, i.e. the blocks at feet and head height are both passable
(spec glossary: a position an entity may occupy without collision or damage). -/
def is_passable (pos : BlockPos) (world : Instance) : Bool :=
  is_block_passable pos world && is_block_passable (pos.up 1) world

/-- Modelled from the spec: whether the entity can stand at the position: the
supporting block below is solid and the two-block column at the position is
passable.  The spec words this as solid support plus passable headroom; the
position itself is the feet position, which is the only reading consistent with
how descend_move in src combines it with fall_distance. -/
def is_standable (pos : BlockPos) (world : Instance) : Bool :=
  is_block_solid (pos.down 1) world && is_passable pos world

/-- Modelled from the spec: the number of consecutive passable blocks directly
below the position (the fall depth used by descend edges), truncated at 4:
descend_move rejects every value above 3, so the truncation is invisible to it. -/
def fall_distance (pos : BlockPos) (world : Instance) : Nat :=
  if ¬ is_block_passable (pos.down 1) world then 0
  else if ¬ is_block_passable (pos.down 2) world then 1
  else if ¬ is_block_passable (pos.down 3) world then 2
  else if ¬ is_block_passable (pos.down 4) world then 3
  else 4

/-! ## Costs (azalea/src/pathfinder/costs.rs, not under src/) -/

/-- Modelled from the spec: the pathfinder cost constants.  Their numeric values
live in costs.rs, which is not part of the sources under scrutiny, so they are
kept abstract; the spec only pins SPRINT_ONE_BLOCK_COST < WALK_ONE_BLOCK_COST. -/
structure Costs where
  SPRINT_ONE_BLOCK_COST : ℚ
  WALK_ONE_BLOCK_COST : ℚ
  JUMP_ONE_BLOCK_COST : ℚ
  FALL_ONE_BLOCK_COST : ℚ

/-- Exact value of the f32 constant std::f32::consts::SQRT_2 (bits 0x3FB504F3)
used by diagonal_move. -/
def SQRT_2 : ℚ := 11863283 / 8388608

/-! ## Events and execution contexts (azalea-client / pathfinder mod.rs) -/

/-- Modelled from the spec: walk directions; only Forward is used by the moves. -/
inductive WalkDirection
  | forward
  | backward
deriving DecidableEq, Repr

/-- Modelled from the spec: sprint directions; only Forward is used by the moves. -/
inductive SprintDirection
  | forward
  | backward
deriving DecidableEq, Repr

/-- Modelled from the spec: the input events an executor can emit
(LookAtEvent, StartWalkEvent, StartSprintEvent, JumpEvent), in emission order. -/
inductive PathEvent
  | lookAt (entity : Nat) (position : Vec3)
  | startWalk (entity : Nat) (direction : WalkDirection)
  | startSprint (entity : Nat) (direction : SprintDirection)
  | jump (entity : Nat)
deriving DecidableEq, Repr

/-- Modelled from the spec: the physics component; only the per-tick velocity
delta is read by the executors. -/
structure Physics where
  delta : Vec3
deriving DecidableEq, Repr

/-- Modelled from the spec: the context handed to an execute closure
(pathfinder moves mod.rs ExecuteCtx), restricted to the fields the basic moves
read. -/
structure ExecuteCtx where
  entity : Nat
  target : BlockPos
  start : BlockPos
  position : Vec3
  physics : Physics
deriving DecidableEq, Repr

/-- Modelled from the spec: the context handed to an is_reached closure
(pathfinder moves mod.rs IsReachedCtx), restricted to the fields the basic
moves read. -/
structure IsReachedCtx where
  target : BlockPos
  start : BlockPos
  position : Vec3
deriving DecidableEq, Repr

/-- Move data carried by an edge: the execute closure (modelled as the list of
events it sends, in order) and the is_reached predicate. -/
structure MoveData where
  execute : ExecuteCtx → List PathEvent
  is_reached : IsReachedCtx → Bool

/-- An A* movement: target node plus the move data. -/
structure Movement where
  target : BlockPos
  data : MoveData

/-- An A* edge: a movement and its cost. -/
structure Edge where
  movement : Movement
  cost : ℚ

/-- Modelled from the spec: default_is_reached compares the block position of
the entity with the target (pathfinder moves mod.rs). -/
def default_is_reached (ctx : IsReachedCtx) : Bool :=
  BlockPos.fromVec3 ctx.position = ctx.target

/-! ## Square-root comparisons

The source compares f64 square roots against the constants 0.25 and 1.25.
Both constants and their squares are exactly representable, and sqrt is
monotone, so the comparisons are computed exactly on the squares; the lemmas
below relate them to Real.sqrt. -/

/-- Whether the square root of the nonnegative rational x exceeds c
(computed as c ^ 2 < x). -/
def sqrt_gt (x c : ℚ) : Bool := c ^ 2 < x

/-- Whether the square root of the nonnegative rational x is below c
(computed as x < c ^ 2). -/
def sqrt_is_lt (x c : ℚ) : Bool := x < c ^ 2

theorem sqrt_gt_iff_real (x c : ℚ) (hc : 0 ≤ c) :
    sqrt_gt x c = true ↔ (c : ℝ) < Real.sqrt (x : ℝ) := by
  rw [sqrt_gt, decide_eq_true_eq]
  rw [show ((c : ℚ) ^ 2 < x) ↔ ((c : ℝ) ^ 2 < (x : ℝ)) by exact_mod_cast Iff.rfl]
  constructor
  · intro h
    have hx : (0 : ℝ) ≤ (x : ℝ) := le_trans (by positivity) h.le
    calc (c : ℝ) = Real.sqrt ((c : ℝ) ^ 2) := by
          rw [Real.sqrt_sq (by exact_mod_cast hc)]
      _ < Real.sqrt (x : ℝ) := by
          exact Real.sqrt_lt_sqrt (by positivity) h
  · intro h
    have hx : (0 : ℝ) < (x : ℝ) :=
      Real.sqrt_pos.mp (lt_of_le_of_lt (by exact_mod_cast hc) h)
    calc (c : ℝ) ^ 2 < Real.sqrt (x : ℝ) ^ 2 := by
          exact pow_lt_pow_left₀ h (by exact_mod_cast hc) (by norm_num)
      _ = (x : ℝ) := Real.sq_sqrt hx.le

theorem sqrt_is_lt_iff_real (x c : ℚ) (hx : 0 ≤ x) (hc : 0 ≤ c) :
    sqrt_is_lt x c = true ↔ Real.sqrt (x : ℝ) < (c : ℝ) := by
  rw [sqrt_is_lt, decide_eq_true_eq]
  rw [show ((x : ℚ) < c ^ 2) ↔ ((x : ℝ) < (c : ℝ) ^ 2) by exact_mod_cast Iff.rfl]
  constructor
  · intro h
    calc Real.sqrt (x : ℝ) < Real.sqrt ((c : ℝ) ^ 2) := by
          exact Real.sqrt_lt_sqrt (by exact_mod_cast hx) h
      _ = (c : ℝ) := Real.sqrt_sq (by exact_mod_cast hc)
  · intro h
    calc (x : ℝ) = Real.sqrt (x : ℝ) ^ 2 := (Real.sq_sqrt (by exact_mod_cast hx)).symm
      _ < (c : ℝ) ^ 2 := pow_lt_pow_left₀ h (Real.sqrt_nonneg _) (by norm_num)

/-! ## Basic moves (azalea/src/pathfinder/moves/basic.rs) -/

/-- Embedding of execute_forward_move: look at the target center, sprint forward. -/
def execute_forward_move (ctx : ExecuteCtx) : List PathEvent :=
  let center := ctx.target.center
  [PathEvent.lookAt ctx.entity center,
   PathEvent.startSprint ctx.entity SprintDirection.forward]

/-- Embedding of the forward_move loop body for one cardinal direction:
skip unless the offset position is standable, else emit a sprint edge. -/
def forward_edge (costs : Costs) (world : Instance) (pos : BlockPos)
    (dir : CardinalDirection) : Option Edge :=
  let offset : BlockPos := ⟨dir.x, 0, dir.z⟩
  if ¬ is_standable (pos + offset) world then none
  else
    some { movement := { target := pos + offset,
                         data := { execute := execute_forward_move,
                                   is_reached := default_is_reached } },
           cost := costs.SPRINT_ONE_BLOCK_COST }

/-- Embedding of forward_move: one candidate edge per cardinal direction. -/
def forward_move (costs : Costs) (world : Instance) (pos : BlockPos) : List Edge :=
  CardinalDirection.iter.filterMap (forward_edge costs world pos)

/-- Embedding of execute_ascend_move: look at the target center and walk
forward on every call; jump only when no early return fires, i.e. when
lateral_motion is at most 0.1 (signed comparison in the source) and
flat_distance_to_next is at most 1.2 and side_distance is at most 0.2. -/
def execute_ascend_move (ctx : ExecuteCtx) : List PathEvent :=
  let target_center := ctx.target.center
  let base : List PathEvent :=
    [PathEvent.lookAt ctx.entity target_center,
     PathEvent.startWalk ctx.entity WalkDirection.forward]
  let x_axis : Int := |ctx.start.x - ctx.target.x|
  let z_axis : Int := |ctx.start.z - ctx.target.z|
  let flat_distance_to_next : ℚ :=
    (x_axis : ℚ) * (target_center.x - ctx.position.x) +
      (z_axis : ℚ) * (target_center.z - ctx.position.z)
  let side_distance : ℚ :=
    (z_axis : ℚ) * |target_center.x - ctx.position.x| +
      (x_axis : ℚ) * |target_center.z - ctx.position.z|
  let lateral_motion : ℚ :=
    (x_axis : ℚ) * ctx.physics.delta.z + (z_axis : ℚ) * ctx.physics.delta.x
  if lateral_motion > 0.1 then base
  else if flat_distance_to_next > 1.2 ∨ side_distance > 0.2 then base
  else base ++ [PathEvent.jump ctx.entity]

/-- Embedding of ascend_is_reached: at the target block or one block below it. -/
def ascend_is_reached (ctx : IsReachedCtx) : Bool :=
  BlockPos.fromVec3 ctx.position = ctx.target ||
    BlockPos.fromVec3 ctx.position = ctx.target.down 1

/-- Embedding of the ascend_move loop body for one cardinal direction. -/
def ascend_edge (costs : Costs) (world : Instance) (pos : BlockPos)
    (dir : CardinalDirection) : Option Edge :=
  let offset : BlockPos := ⟨dir.x, 1, dir.z⟩
  if ¬ is_block_passable (pos.up 2) world then none
  else if ¬ is_standable (pos + offset) world then none
  else
    some { movement := { target := pos + offset,
                         data := { execute := execute_ascend_move,
                                   is_reached := ascend_is_reached } },
           cost := costs.SPRINT_ONE_BLOCK_COST + costs.JUMP_ONE_BLOCK_COST }

/-- Embedding of ascend_move: one candidate edge per cardinal direction. -/
def ascend_move (costs : Costs) (world : Instance) (pos : BlockPos) : List Edge :=
  CardinalDirection.iter.filterMap (ascend_edge costs world pos)

/-- The dest_ahead position used by the descend executor and is_reached check:
start plus twice the horizontal offset towards the target, at the target y. -/
def descend_dest_ahead (start target : BlockPos) : BlockPos :=
  ⟨start.x + (target.x - start.x) * 2, target.y, start.z + (target.z - start.z) * 2⟩

/-- Embedding of execute_descend_move.  The source computes the f64 square
roots of the squared horizontal distances and compares them against 0.25 and
1.25; those comparisons are modelled exactly on the squares via sqrt_gt and
sqrt_is_lt. -/
def execute_descend_move (ctx : ExecuteCtx) : List PathEvent :=
  let center := ctx.target.center
  let horizontal_distance_from_target_sqr : ℚ :=
    (center - ctx.position).horizontal_distance_sqr
  let horizontal_distance_from_start_sqr : ℚ :=
    (ctx.start.center - ctx.position).horizontal_distance_sqr
  let dest_ahead := descend_dest_ahead ctx.start ctx.target
  if BlockPos.fromVec3 ctx.position ≠ ctx.target ∨
      sqrt_gt horizontal_distance_from_target_sqr 0.25 = true then
    if sqrt_is_lt horizontal_distance_from_start_sqr 1.25 = true ∨
        ctx.start.y - ctx.target.y = 1 then
      [PathEvent.lookAt ctx.entity dest_ahead.center,
       PathEvent.startSprint ctx.entity SprintDirection.forward]
    else
      [PathEvent.lookAt ctx.entity center,
       PathEvent.startSprint ctx.entity SprintDirection.forward]
  else []

/-- Embedding of descend_is_reached: at the target block or at dest_ahead, and
less than half a block above the target level. -/
def descend_is_reached (ctx : IsReachedCtx) : Bool :=
  let dest_ahead := descend_dest_ahead ctx.start ctx.target
  (BlockPos.fromVec3 ctx.position = ctx.target ||
      BlockPos.fromVec3 ctx.position = dest_ahead) &&
    ctx.position.y - (ctx.target.y : ℚ) < 0.5

/-- Embedding of the descend_move loop body for one cardinal direction:
compute the fall distance below the horizontally offset position, reject falls
of 0 or more than 3 blocks, require the offset column to be passable and the
landing position to be standable. -/
def descend_edge (costs : Costs) (world : Instance) (pos : BlockPos)
    (dir : CardinalDirection) : Option Edge :=
  let new_horizontal_position := pos + (⟨dir.x, 0, dir.z⟩ : BlockPos)
  let fd := fall_distance new_horizontal_position world
  if fd = 0 ∨ fd > 3 then none
  else
    let new_position := new_horizontal_position.down fd
    if ¬ is_passable new_horizontal_position world then none
    else if ¬ is_standable new_position world then none
    else
      some { movement := { target := new_position,
                           data := { execute := execute_descend_move,
                                     is_reached := descend_is_reached } },
             cost := costs.SPRINT_ONE_BLOCK_COST + costs.FALL_ONE_BLOCK_COST * fd }

/-- Embedding of descend_move: one candidate edge per cardinal direction. -/
def descend_move (costs : Costs) (world : Instance) (pos : BlockPos) : List Edge :=
  CardinalDirection.iter.filterMap (descend_edge costs world pos)

/-- Embedding of execute_diagonal_move: look at the target center, sprint forward. -/
def execute_diagonal_move (ctx : ExecuteCtx) : List PathEvent :=
  let center := ctx.target.center
  [PathEvent.lookAt ctx.entity center,
   PathEvent.startSprint ctx.entity SprintDirection.forward]

/-- Embedding of the diagonal_move loop body for one cardinal direction: the
corner offset combines the direction and its right neighbour; skip when both
adjacent cardinal positions are impassable or the corner is not standable. -/
def diagonal_edge (costs : Costs) (world : Instance) (pos : BlockPos)
    (dir : CardinalDirection) : Option Edge :=
  let offset : BlockPos := ⟨dir.x + dir.right.x, 0, dir.z + dir.right.z⟩
  if ¬ is_passable (⟨pos.x + dir.x, pos.y, pos.z + dir.z⟩ : BlockPos) world ∧
      ¬ is_passable (⟨pos.x + dir.right.x, pos.y, pos.z + dir.right.z⟩ : BlockPos) world then
    none
  else if ¬ is_standable (pos + offset) world then none
  else
    some { movement := { target := pos + offset,
                         data := { execute := execute_diagonal_move,
                                   is_reached := default_is_reached } },
           cost := costs.SPRINT_ONE_BLOCK_COST * SQRT_2 + 0.001 }

/-- Embedding of diagonal_move: one candidate edge per cardinal direction. -/
def diagonal_move (costs : Costs) (world : Instance) (pos : BlockPos) : List Edge :=
  CardinalDirection.iter.filterMap (diagonal_edge costs world pos)

/-- Embedding of basic_move: the union of the four move families. -/
def basic_move (costs : Costs) (world : Instance) (pos : BlockPos) : List Edge :=
  forward_move costs world pos ++ ascend_move costs world pos ++
    descend_move costs world pos ++ diagonal_move costs world pos

/-! ## Brigadier argument builder (azalea-brigadier/src/builder/argument_builder.rs)

The node graph is modelled with abstract identifiers: a NodeRef stands for an
Arc of a CommandNode, a Modifier for an Arc of a RedirectModifier, and a child
entry for a named child node.  Only the fields forward reads or writes are
modelled concretely; running a command or a requirement is irrelevant here. -/

/-- Abstract reference to a shared CommandNode. -/
abbrev NodeRef := Nat

/-- Abstract reference to a redirect modifier. -/
abbrev Modifier := Nat

/-- The builder under construction: its accumulated children (the children map
of the inner arguments node) and the redirect-related fields. -/
structure ArgumentBuilder where
  children : List (String × NodeRef)
  target : Option NodeRef
  forks : Bool
  modifier : Option Modifier
deriving DecidableEq, Repr

/-- Embedding of ArgumentBuilder::forward.  The Rust function panics with
message Cannot forward a node with children when the children map is
non-empty; the panic is modelled as none. -/
def ArgumentBuilder.forward (b : ArgumentBuilder) (target : NodeRef)
    (modifier : Option Modifier) (fork : Bool) : Option ArgumentBuilder :=
  if ¬ b.children.isEmpty then none
  else some { b with target := some target, modifier := modifier, forks := fork }

/-- Embedding of ArgumentBuilder::redirect: forward with no modifier, not forking. -/
def ArgumentBuilder.redirect (b : ArgumentBuilder) (target : NodeRef) :
    Option ArgumentBuilder :=
  b.forward target none false

/-- Embedding of ArgumentBuilder::fork: forward with a modifier, forking. -/
def ArgumentBuilder.forkWith (b : ArgumentBuilder) (target : NodeRef)
    (modifier : Modifier) : Option ArgumentBuilder :=
  b.forward target (some modifier) true

/-! ## Disconnect systems (azalea-client/src/disconnect.rs)

The ECS is modelled as a list of entity records restricted to the components
these systems touch.  Bevy change detection is modelled by a flag on the
IsConnectionAlive component: inserting the component sets the flag, and the
Changed filter of a query tests it. -/

/-- Components of a local player entity, as tags.  The first fifteen form the
JoinedClientBundle of client.rs (mining and attack stand for the nested
MineBundle and AttackBundle); the rest belong to the LocalPlayerBundle, which
survives a disconnect. -/
inductive GameComponent
  | instanceHolder
  | physicsState
  | inventory
  | clientInformation
  | tabList
  | currentSequenceNumber
  | lastSentLookDirection
  | abilities
  | permissionLevel
  | chunkBatchInfo
  | hunger
  | entityIdIndex
  | mining
  | attack
  | localEntity
  | rawConnection
  | receivedRegistries
  | localPlayerEvents
  | gameProfileComponent
  | account
deriving DecidableEq, Repr

/-- The components of JoinedClientBundle (client.rs), removed on disconnect. -/
def JoinedClientBundle : List GameComponent :=
  [.instanceHolder, .physicsState, .inventory, .clientInformation, .tabList,
   .currentSequenceNumber, .lastSentLookDirection, .abilities, .permissionLevel,
   .chunkBatchInfo, .hunger, .entityIdIndex, .mining, .attack, .localEntity]

/-- A disconnect event names the entity being disconnected. -/
structure DisconnectEvent where
  entity : Nat
deriving DecidableEq, Repr

/-- An ECS entity as seen by the disconnect systems: its id, its component
tags, the RawConnection liveness (some b when the entity has a RawConnection
whose is_alive() returns b), the IsConnectionAlive component, and the bevy
changed flag of that component. -/
structure EcsEntity where
  id : Nat
  components : List GameComponent
  rawConnectionAlive : Option Bool
  isConnectionAlive : Option Bool
  aliveChanged : Bool
deriving DecidableEq, Repr

/-- Embedding of update_read_packets_task_running_component: for every entity
with a RawConnection, insert IsConnectionAlive(is_alive()).  Inserting a
component marks it changed for this pass. -/
def update_read_packets_task_running_component (entities : List EcsEntity) :
    List EcsEntity :=
  entities.map fun en =>
    match en.rawConnectionAlive with
    | some running => { en with isConnectionAlive := some running, aliveChanged := true }
    | none => en

/-- Embedding of disconnect_on_connection_dead: over entities whose
IsConnectionAlive passes the Changed filter, send a DisconnectEvent when the
component is false. -/
def disconnect_on_connection_dead (entities : List EcsEntity) :
    List DisconnectEvent :=
  entities.filterMap fun en =>
    match en.isConnectionAlive with
    | some alive => if en.aliveChanged ∧ alive = false then some ⟨en.id⟩ else none
    | none => none

/-- Processing of a single DisconnectEvent by
remove_components_from_disconnected_players: remove the JoinedClientBundle
components from the entity the event names. -/
def removeJoinedBundle (ents : List EcsEntity) (ev : DisconnectEvent) :
    List EcsEntity :=
  ents.map fun en =>
    if en.id = ev.entity then
      { en with components := en.components.filter (fun c => c ∉ JoinedClientBundle) }
    else en

/-- Embedding of remove_components_from_disconnected_players: for every
DisconnectEvent read this pass, remove the JoinedClientBundle components from
that entity. -/
def remove_components_from_disconnected_players (events : List DisconnectEvent)
    (entities : List EcsEntity) : List EcsEntity :=
  events.foldl removeJoinedBundle entities

/-- One PostUpdate pass of the chained disconnect systems, in their declared
order.  pending holds the DisconnectEvents already sent before the pass;
events sent by disconnect_on_connection_dead during the pass are visible to
remove_components_from_disconnected_players in the same pass because the
systems are chained.  Returns the entities after the pass and all events the
event reader saw. -/
def disconnectPostUpdatePass (pending : List DisconnectEvent)
    (entities : List EcsEntity) : List EcsEntity × List DisconnectEvent :=
  let e1 := update_read_packets_task_running_component entities
  let events := pending ++ disconnect_on_connection_dead e1
  (remove_components_from_disconnected_players events e1, events)

/-! ## Client startup (azalea-client/src/client.rs, Client::start_client)

Only the entity-binding step of start_client is embedded: looking up the
profile UUID in the EntityUuidIndex resource, reusing the entity when present,
and otherwise spawning a fresh entity and registering it.  UUIDs are modelled
as naturals. -/

/-- A game profile as used by the handshake and startup: username and UUID. -/
structure GameProfile where
  name : String
  uuid : Nat
deriving DecidableEq, Repr

/-- The EntityUuidIndex resource: a map from UUID to ECS entity id, modelled
as an association list where an insert prepends (the first hit wins, giving
overwrite semantics). -/
structure EntityUuidIndex where
  entries : List (Nat × Nat)
deriving DecidableEq, Repr

/-- Lookup in the EntityUuidIndex. -/
def EntityUuidIndex.get (idx : EntityUuidIndex) (uuid : Nat) : Option Nat :=
  (idx.entries.find? (fun p => p.1 = uuid)).map Prod.snd

/-- Insert into the EntityUuidIndex. -/
def EntityUuidIndex.insert (idx : EntityUuidIndex) (uuid entity : Nat) :
    EntityUuidIndex :=
  ⟨(uuid, entity) :: idx.entries⟩

/-- The slice of the ECS world that the entity-binding step touches: the
EntityUuidIndex resource and the fresh-entity counter backing spawn_empty. -/
structure EcsWorld where
  entityUuidIndex : EntityUuidIndex
  nextEntity : Nat
deriving DecidableEq, Repr

/-- Embedding of the entity-binding step of Client::start_client: reuse the
entity already indexed under the profile UUID when there is one, otherwise
spawn a new entity and add it to the index. -/
def start_client_entity (ecs : EcsWorld) (profileUuid : Nat) : Nat × EcsWorld :=
  match ecs.entityUuidIndex.get profileUuid with
  | some entity => (entity, ecs)
  | none =>
    let entity := ecs.nextEntity
    (entity,
     { entityUuidIndex := ecs.entityUuidIndex.insert profileUuid entity,
       nextEntity := ecs.nextEntity + 1 })

/-! ## Handshake and session-server authentication (client.rs, Client::handshake)

The connection is abstracted away: inbound login packets are a list, outbound
writes always succeed, and the session server is an oracle giving the outcome
of the n-th authenticate call.  Reading from an exhausted packet list is a
read error.  The state threads the observable side effects: how many
authenticate calls and successful token refreshes happened, whether the
encryption key was sent, and the compression threshold. -/

/-- Modelled from the spec: the error kinds of the session server
(ClientSessionServerError in azalea-auth, not under src/): invalid session,
forbidden operation, or any other failure. -/
inductive ClientSessionServerError
  | invalidSession
  | forbiddenOperation
  | unexpected (code : Nat)
deriving DecidableEq, Repr

/-- Whether an error is one of the two retryable kinds matched by handshake. -/
def ClientSessionServerError.retryable : ClientSessionServerError → Bool
  | .invalidSession => true
  | .forbiddenOperation => true
  | .unexpected _ => false

/-- The JoinError variants reachable from the embedded part of handshake. -/
inductive JoinError
  | sessionServer (e : ClientSessionServerError)
  | auth
  | readPacket
  | disconnect (reason : String)
deriving DecidableEq, Repr

/-- An account: username, optional UUID, optional access token. -/
structure Account where
  username : String
  uuid : Option Nat
  access_token : Option String
deriving DecidableEq, Repr

/-- The session-server oracle: the outcome of the n-th authenticate call
(none is success), and whether a token refresh succeeds. -/
structure SessionServer where
  authenticate : Nat → Option ClientSessionServerError
  refreshOk : Bool

/-- Observable side effects of the login flow. -/
structure LoginState where
  authCalls : Nat
  refreshes : Nat
  sentKey : Bool
  compressionThreshold : Option Int
deriving DecidableEq, Repr

/-- The clientbound login packets handshake dispatches on.  Packet payloads
are reduced to the fields the client logic reads. -/
inductive ClientboundLoginPacket
  | hello
  | loginCompression (threshold : Int)
  | gameProfilePacket (profile : GameProfile)
  | loginDisconnect (reason : String)
  | customQuery (transactionId : Nat)
deriving DecidableEq, Repr

/-- Result of handshake: the profile and final state on success, a JoinError
otherwise, or the panic from the expect on a missing UUID. -/
inductive HandshakeOutcome
  | ok (profile : GameProfile) (state : LoginState)
  | err (e : JoinError) (state : LoginState)
  | panicked (state : LoginState)
deriving DecidableEq, Repr

/-- Embedding of the authentication retry loop inside handshake (the while-let
over conn.authenticate): attempts starts at 1; on failure, give up when this
was already the second attempt, refresh the token and retry once on
InvalidSession or ForbiddenOperation, and fail on any other error kind.  A
failed refresh propagates as an Auth error. -/
def authLoop (server : SessionServer) (attempts : Nat) (s : LoginState) :
    Except JoinError Unit × LoginState :=
  match server.authenticate s.authCalls with
  | none => (Except.ok (), { s with authCalls := s.authCalls + 1 })
  | some e =>
    let s1 := { s with authCalls := s.authCalls + 1 }
    if h : attempts ≥ 2 then
      (Except.error (JoinError.sessionServer e), s1)
    else if e.retryable then
      if server.refreshOk then
        authLoop server (attempts + 1) { s1 with refreshes := s1.refreshes + 1 }
      else (Except.error JoinError.auth, s1)
    else (Except.error (JoinError.sessionServer e), s1)
termination_by 2 - attempts
decreasing_by simp_wf; omega

/-- Embedding of the packet loop of Client::handshake, from the point where
the Hello packet has been written.  Hello runs the authentication block (only
when the account has an access token; the expect on the UUID panics when it is
missing), then sends the key packet and enables encryption; LoginCompression
stores the threshold; GameProfile acknowledges and succeeds; LoginDisconnect
fails with the reason; CustomQuery is answered and skipped. -/
def handshakeLoop (account : Account) (server : SessionServer) :
    List ClientboundLoginPacket → LoginState → HandshakeOutcome
  | [], s => .err JoinError.readPacket s
  | packet :: rest, s =>
    match packet with
    | .hello =>
      match account.access_token with
      | some _ =>
        match account.uuid with
        | none => .panicked s
        | some _ =>
          match authLoop server 1 s with
          | (Except.error e, s2) => .err e s2
          | (Except.ok (), s2) =>
            handshakeLoop account server rest { s2 with sentKey := true }
      | none => handshakeLoop account server rest { s with sentKey := true }
    | .loginCompression t =>
      handshakeLoop account server rest { s with compressionThreshold := some t }
    | .gameProfilePacket profile => .ok profile s
    | .loginDisconnect reason => .err (JoinError.disconnect reason) s
    | .customQuery _ => handshakeLoop account server rest s

/-- The initial login state of a fresh connection. -/
def LoginState.init : LoginState :=
  { authCalls := 0, refreshes := 0, sentKey := false, compressionThreshold := none }

/-- A concrete test world: air from height 1 upward above a floor of solid
blocks at height 0, used to exercise the move generators on closed inputs. -/
def ledgeWorld : Instance :=
  { passableAt := fun p => decide (1 ≤ p.y), solidAt := fun p => decide (p.y = 0) }

/-! ## Theorems -/

theorem descend_move_ledge_test :
    (descend_move ⟨1, 2, 3, 4⟩ ledgeWorld ⟨0, 2, 0⟩).length = 4 ∧
      ((descend_move ⟨1, 2, 3, 4⟩ ledgeWorld ⟨0, 2, 0⟩).map
        (fun e => e.movement.target)).head? = some ⟨0, 1, -1⟩ := by
  constructor <;> decide

theorem diagonal_move_ledge_test :
    (diagonal_move ⟨1, 2, 3, 4⟩ ledgeWorld ⟨0, 1, 0⟩).length = 4 := by
  decide

theorem handshakeLoop_success_test :
    handshakeLoop ⟨"bot", none, none⟩ ⟨fun _ => none, true⟩
      [.hello, .loginCompression 256, .gameProfilePacket ⟨"bot", 9⟩]
      LoginState.init = .ok ⟨"bot", 9⟩ ⟨0, 0, true, some 256⟩ := by
  decide

theorem Vec3.sub_def (a b : Vec3) :
    a - b = ⟨a.x - b.x, a.y - b.y, a.z - b.z⟩ := rfl

theorem BlockPos.add_def (a b : BlockPos) :
    a + b = ⟨a.x + b.x, a.y + b.y, a.z + b.z⟩ := rfl

theorem horizontal_distance_sqr_nonneg (v : Vec3) :
    0 ≤ v.horizontal_distance_sqr :=
  add_nonneg (mul_self_nonneg _) (mul_self_nonneg _)

/-- C10: for every state type, ArgumentBuilder::forward panics (modelled as
none) exactly when the builder already has at least one child node; on a
builder with no children it returns normally with the target, modifier and
forks fields set to the given arguments.  redirect and fork are the two
specializations calling it. -/
theorem forward_spec (b : ArgumentBuilder) (target : NodeRef)
    (modifier : Option Modifier) (fork : Bool) (m : Modifier) :
    (b.forward target modifier fork = none ↔ b.children ≠ []) ∧
    (b.children = [] →
      b.forward target modifier fork =
        some { b with target := some target, modifier := modifier, forks := fork }) ∧
    b.redirect target = b.forward target none false ∧
    b.forkWith target m = b.forward target (some m) true := by
  refine ⟨?_, ?_, rfl, rfl⟩
  · rw [ArgumentBuilder.forward]
    constructor
    · intro h hne
      rw [if_neg (by simp [hne])] at h
      exact Option.some_ne_none _ h
    · intro h
      rw [if_pos (by simpa using h)]
  · intro h
    rw [ArgumentBuilder.forward, if_neg (by simp [h])]

/-- C10 witness: on a child-free builder, forward succeeds and sets the
redirect fields. -/
theorem forward_spec_witness :
    (⟨[], none, false, none⟩ : ArgumentBuilder).forward 3 (some 5) true =
      some ⟨[], some 3, true, some 5⟩ :=
  (forward_spec ⟨[], none, false, none⟩ 3 (some 5) true 5).2.1 rfl

/-- C5: descend_is_reached returns true exactly when the block position of the
entity is the target or dest_ahead (start plus twice the horizontal offset to
the target, at the target y) and the entity is less than half a block above
the target level. -/
theorem descend_is_reached_spec (ctx : IsReachedCtx) :
    descend_is_reached ctx = true ↔
      ((BlockPos.fromVec3 ctx.position = ctx.target ∨
          BlockPos.fromVec3 ctx.position = descend_dest_ahead ctx.start ctx.target) ∧
        ctx.position.y - (ctx.target.y : ℚ) < 0.5) := by
  simp [descend_is_reached]

/-- C9: the entity-binding step of Client::start_client reuses the entity
already registered under the profile UUID when the index has one (leaving the
ECS unchanged), otherwise spawns a fresh entity and registers it under that
UUID; rebinding with the same UUID afterwards therefore yields the same
entity, so the binding is stable across reconnects. -/
theorem start_client_entity_spec (ecs : EcsWorld) (uuid : Nat) :
    (∀ e, ecs.entityUuidIndex.get uuid = some e →
      start_client_entity ecs uuid = (e, ecs)) ∧
    (ecs.entityUuidIndex.get uuid = none →
      (start_client_entity ecs uuid).1 = ecs.nextEntity ∧
        (start_client_entity ecs uuid).2.entityUuidIndex.get uuid =
          some ecs.nextEntity) ∧
    start_client_entity (start_client_entity ecs uuid).2 uuid =
      ((start_client_entity ecs uuid).1, (start_client_entity ecs uuid).2) := by
  refine ⟨?_, ?_, ?_⟩
  · intro e he
    rw [start_client_entity, he]
  · intro hnone
    rw [start_client_entity, hnone]
    refine ⟨rfl, ?_⟩
    simp [EntityUuidIndex.get, EntityUuidIndex.insert, List.find?]
  · cases hget : ecs.entityUuidIndex.get uuid with
    | some e => simp only [start_client_entity, hget]
    | none =>
      have hget2 : (EntityUuidIndex.insert ecs.entityUuidIndex uuid
          ecs.nextEntity).get uuid = some ecs.nextEntity := by
        simp [EntityUuidIndex.get, EntityUuidIndex.insert, List.find?]
      simp only [start_client_entity, hget, hget2]

/-- C9 witness: on an empty index, a fresh entity is spawned and registered,
and rebinding yields the same entity. -/
theorem start_client_entity_spec_witness :
    (EcsWorld.mk ⟨[]⟩ 0).entityUuidIndex.get 42 = none ∧
      (start_client_entity (EcsWorld.mk ⟨[]⟩ 0) 42).1 = 0 ∧
      (start_client_entity (EcsWorld.mk ⟨[]⟩ 0) 42).2.entityUuidIndex.get 42 = some 0 ∧
      start_client_entity (start_client_entity (EcsWorld.mk ⟨[]⟩ 0) 42).2 42 =
        ((start_client_entity (EcsWorld.mk ⟨[]⟩ 0) 42).1,
          (start_client_entity (EcsWorld.mk ⟨[]⟩ 0) 42).2) := by
  have h := start_client_entity_spec (EcsWorld.mk ⟨[]⟩ 0) 42
  exact ⟨by decide, (h.2.1 (by decide)).1, (h.2.1 (by decide)).2, h.2.2⟩

/-- C7: the disconnect_on_connection_dead system sends a DisconnectEvent
exactly for the entities whose IsConnectionAlive component is false and passed
the Changed filter this pass; entities whose component is true, or unchanged,
get no event from this system. -/
theorem disconnect_on_connection_dead_spec (entities : List EcsEntity)
    (ev : DisconnectEvent) :
    ev ∈ disconnect_on_connection_dead entities ↔
      ∃ en ∈ entities, en.id = ev.entity ∧
        en.isConnectionAlive = some false ∧ en.aliveChanged = true := by
  rw [disconnect_on_connection_dead, List.mem_filterMap]
  constructor
  · rintro ⟨en, hen, hsome⟩
    refine ⟨en, hen, ?_⟩
    rcases halive : en.isConnectionAlive with _ | alive
    · rw [halive] at hsome
      simp at hsome
    · rw [halive] at hsome
      simp only [] at hsome
      split at hsome
      · rename_i hcond
        cases hsome
        exact ⟨rfl, by rw [hcond.2], hcond.1⟩
      · cases hsome
  · rintro ⟨en, hen, hid, halive, hch⟩
    cases ev with
    | mk evEntity =>
      refine ⟨en, hen, ?_⟩
      simp only at hid
      simp [halive, hch, hid]

/-- C1: when the first authenticate call during handshake fails, the behaviour
is fully determined: on InvalidSession or ForbiddenOperation the token is
refreshed exactly once and authentication is retried exactly once, a failure
of that retry (any error kind) aborting the handshake with it and a success
continuing the packet loop with one refresh recorded; a failed refresh aborts
with the Auth error; and any other first error kind aborts immediately with no
refresh and no retry. -/
theorem handshake_auth_retry (account : Account) (server : SessionServer)
    (rest : List ClientboundLoginPacket) (s : LoginState) (tok : String)
    (u : Nat) (e : ClientSessionServerError)
    (htok : account.access_token = some tok)
    (huuid : account.uuid = some u)
    (hfail : server.authenticate s.authCalls = some e) :
    handshakeLoop account server (ClientboundLoginPacket.hello :: rest) s =
      (if e.retryable then
        (if server.refreshOk then
          (match server.authenticate (s.authCalls + 1) with
           | none =>
             handshakeLoop account server rest
               { s with authCalls := s.authCalls + 2,
                        refreshes := s.refreshes + 1, sentKey := true }
           | some e2 =>
             HandshakeOutcome.err (JoinError.sessionServer e2)
               { s with authCalls := s.authCalls + 2,
                        refreshes := s.refreshes + 1 })
         else
           HandshakeOutcome.err JoinError.auth
             { s with authCalls := s.authCalls + 1 })
       else
         HandshakeOutcome.err (JoinError.sessionServer e)
           { s with authCalls := s.authCalls + 1 }) := by
  rw [handshakeLoop, htok, huuid]
  rw [authLoop, hfail]
  simp only [ge_iff_le, Nat.not_succ_le_self, dite_false]
  rcases hretry : e.retryable with _ | _
  · simp
  · simp only [if_true]
    rcases hrefresh : server.refreshOk with _ | _
    · simp
    · simp only [if_true]
      rw [authLoop]
      rcases hsecond : server.authenticate (s.authCalls + 1) with _ | e2
      · simp
      · simp

/-- C1 witness: a session server that answers InvalidSession then an
unrelated error makes handshake refresh once, retry once, and abort with the
second error. -/
theorem handshake_auth_retry_witness :
    handshakeLoop ⟨"bot", some 1, some "tok"⟩
        ⟨fun n => if n = 0 then some ClientSessionServerError.invalidSession
                  else some (ClientSessionServerError.unexpected 7), true⟩
        [ClientboundLoginPacket.hello] LoginState.init =
      HandshakeOutcome.err
        (JoinError.sessionServer (ClientSessionServerError.unexpected 7))
        { authCalls := 2, refreshes := 1, sentKey := false,
          compressionThreshold := none } := by
  have h := handshake_auth_retry ⟨"bot", some 1, some "tok"⟩
      ⟨fun n => if n = 0 then some ClientSessionServerError.invalidSession
                else some (ClientSessionServerError.unexpected 7), true⟩
      [] LoginState.init "tok" 1 ClientSessionServerError.invalidSession
      rfl rfl rfl
  simpa using h

/-- C3 counterexample: execute_ascend_move compares lateral_motion signed, not
by absolute value, so at this context lateral_motion is -5, its absolute value
exceeds 0.1, and a JumpEvent is still emitted. -/
theorem execute_ascend_move_abs_counterexample :
    (let ctx : ExecuteCtx :=
      ⟨7, ⟨1, 1, 0⟩, ⟨0, 0, 0⟩, ⟨3/2, 3/2, 1/2⟩, ⟨⟨0, 0, -5⟩⟩⟩
     let x_axis : Int := |ctx.start.x - ctx.target.x|
     let z_axis : Int := |ctx.start.z - ctx.target.z|
     let lateral_motion : ℚ :=
       (x_axis : ℚ) * ctx.physics.delta.z + (z_axis : ℚ) * ctx.physics.delta.x
     |lateral_motion| > 0.1 ∧
       PathEvent.jump ctx.entity ∈ execute_ascend_move ctx) := by
  refine ⟨by norm_num, ?_⟩
  norm_num [execute_ascend_move, BlockPos.center]

/-- C3 (amended): execute_ascend_move emits a LookAtEvent at the target center
and a forward StartWalkEvent on every call, and emits a JumpEvent exactly when
the signed lateral_motion is at most 0.1 (the source does not take the
absolute value, so a large negative lateral motion still jumps) and
flat_distance_to_next is at most 1.2 and side_distance is at most 0.2. -/
theorem execute_ascend_move_spec (ctx : ExecuteCtx) :
    (PathEvent.lookAt ctx.entity ctx.target.center ∈ execute_ascend_move ctx ∧
      PathEvent.startWalk ctx.entity WalkDirection.forward ∈
        execute_ascend_move ctx) ∧
    (PathEvent.jump ctx.entity ∈ execute_ascend_move ctx ↔
      (let x_axis : Int := |ctx.start.x - ctx.target.x|
       let z_axis : Int := |ctx.start.z - ctx.target.z|
       (x_axis : ℚ) * ctx.physics.delta.z +
           (z_axis : ℚ) * ctx.physics.delta.x ≤ 0.1 ∧
         (x_axis : ℚ) * (ctx.target.center.x - ctx.position.x) +
             (z_axis : ℚ) * (ctx.target.center.z - ctx.position.z) ≤ 1.2 ∧
           (z_axis : ℚ) * |ctx.target.center.x - ctx.position.x| +
             (x_axis : ℚ) * |ctx.target.center.z - ctx.position.z| ≤ 0.2)) := by
  simp only [execute_ascend_move]
  split_ifs with h1 h2
  · refine ⟨⟨by simp, by simp⟩, ?_⟩
    simp only [List.mem_cons, List.not_mem_nil, or_false]
    constructor
    · intro hjump
      cases hjump <;> simp_all
    · intro ⟨hlm, _, _⟩
      exact absurd h1 (not_lt.mpr hlm)
  · refine ⟨⟨by simp, by simp⟩, ?_⟩
    simp only [List.mem_cons, List.not_mem_nil, or_false]
    constructor
    · intro hjump
      cases hjump <;> simp_all
    · intro ⟨_, hflat, hside⟩
      rcases h2 with h2 | h2
      · exact absurd h2 (not_lt.mpr hflat)
      · exact absurd h2 (not_lt.mpr hside)
  · push_neg at h1 h2
    refine ⟨⟨by simp, by simp⟩, ?_⟩
    simp only [List.mem_append, List.mem_cons, List.not_mem_nil, or_false]
    constructor
    · intro _
      exact ⟨h1, h2.1, h2.2⟩
    · intro _
      simp

/-- C4 counterexample: when the entity is already at the target block and
within 0.25 horizontally of its center, execute_descend_move emits nothing at
all, so it does not emit a LookAtEvent and a StartSprintEvent on every call. -/
theorem execute_descend_move_every_call_counterexample :
    execute_descend_move
        ⟨3, ⟨0, 0, 1⟩, ⟨0, 1, 0⟩, ⟨1/2, 1/2, 3/2⟩, ⟨⟨0, 0, 0⟩⟩⟩ = [] := by
  norm_num [execute_descend_move, BlockPos.center, BlockPos.fromVec3,
    Vec3.horizontal_distance_sqr, sqrt_gt, descend_dest_ahead, Vec3.sub_def]

/-- C4 (amended): execute_descend_move emits nothing when the entity is
already at the target block and its horizontal distance from the target
center is at most 0.25; otherwise it emits exactly a LookAtEvent and a
forward StartSprintEvent, aiming at dest_ahead (the point projected one block
past the target along the start-to-target direction) when the fall is only
one block or the horizontal distance from the start is below 1.25, and at the
target center otherwise. -/
theorem execute_descend_move_spec (ctx : ExecuteCtx) :
    (BlockPos.fromVec3 ctx.position = ctx.target ∧
        Real.sqrt ((ctx.target.center - ctx.position).horizontal_distance_sqr : ℝ) ≤
          0.25 →
      execute_descend_move ctx = []) ∧
    (BlockPos.fromVec3 ctx.position ≠ ctx.target ∨
        0.25 <
          Real.sqrt ((ctx.target.center - ctx.position).horizontal_distance_sqr : ℝ) →
      (Real.sqrt ((ctx.start.center - ctx.position).horizontal_distance_sqr : ℝ) <
            1.25 ∨
          ctx.start.y - ctx.target.y = 1 →
        execute_descend_move ctx =
          [PathEvent.lookAt ctx.entity (descend_dest_ahead ctx.start ctx.target).center,
           PathEvent.startSprint ctx.entity SprintDirection.forward]) ∧
      (¬(Real.sqrt
              ((ctx.start.center - ctx.position).horizontal_distance_sqr : ℝ) <
              1.25 ∨
            ctx.start.y - ctx.target.y = 1) →
        execute_descend_move ctx =
          [PathEvent.lookAt ctx.entity ctx.target.center,
           PathEvent.startSprint ctx.entity SprintDirection.forward])) := by
  have c1 : (((0.25 : ℚ) : ℝ)) = (0.25 : ℝ) := by norm_num
  have c2 : (((1.25 : ℚ) : ℝ)) = (1.25 : ℝ) := by norm_num
  have hT := sqrt_gt_iff_real
    (ctx.target.center - ctx.position).horizontal_distance_sqr 0.25 (by norm_num)
  have hS := sqrt_is_lt_iff_real
    (ctx.start.center - ctx.position).horizontal_distance_sqr 1.25
    (horizontal_distance_sqr_nonneg _) (by norm_num)
  rw [c1] at hT
  rw [c2] at hS
  simp only [execute_descend_move]
  by_cases houter : BlockPos.fromVec3 ctx.position ≠ ctx.target ∨
      sqrt_gt (ctx.target.center - ctx.position).horizontal_distance_sqr 0.25 = true
  · rw [if_pos houter]
    constructor
    · rintro ⟨heq, hle⟩
      rcases houter with h | h
      · exact absurd heq h
      · exact absurd (hT.mp h) (not_lt.mpr hle)
    · intro _
      constructor
      · intro hinner
        rw [if_pos]
        rcases hinner with h | h
        · exact Or.inl (hS.mpr h)
        · exact Or.inr h
      · intro hinner
        rw [if_neg]
        intro hcontra
        apply hinner
        rcases hcontra with h | h
        · exact Or.inl (hS.mp h)
        · exact Or.inr h
  · rw [if_neg houter]
    push_neg at houter
    obtain ⟨heq, hgt⟩ := houter
    constructor
    · intro _
      rfl
    · intro hor
      rcases hor with h | h
      · exact absurd heq h
      · rw [← hT] at h
        exact absurd h hgt

/-- C4 witness: away from the target and with a one-block fall, the executor
aims at dest_ahead and sprints forward. -/
theorem execute_descend_move_spec_witness :
    execute_descend_move ⟨3, ⟨1, 0, 0⟩, ⟨0, 1, 0⟩, ⟨5, 5, 5⟩, ⟨⟨0, 0, 0⟩⟩⟩ =
      [PathEvent.lookAt 3 ⟨5/2, 1/2, 1/2⟩,
       PathEvent.startSprint 3 SprintDirection.forward] := by
  have h := (execute_descend_move_spec
      ⟨3, ⟨1, 0, 0⟩, ⟨0, 1, 0⟩, ⟨5, 5, 5⟩, ⟨⟨0, 0, 0⟩⟩⟩).2
    (Or.inl (by decide)) |>.1 (Or.inr (by decide))
  rw [h]
  norm_num [descend_dest_ahead, BlockPos.center]

theorem removeJoinedBundle_mem (ents : List EcsEntity) (ev : DisconnectEvent)
    (en : EcsEntity) (hen : en ∈ removeJoinedBundle ents ev) :
    ∃ en0 ∈ ents, en.id = en0.id ∧ ∀ c ∈ en.components, c ∈ en0.components := by
  rw [removeJoinedBundle, List.mem_map] at hen
  obtain ⟨en0, hen0, heq⟩ := hen
  refine ⟨en0, hen0, ?_⟩
  by_cases h : en0.id = ev.entity
  · rw [if_pos h] at heq
    subst heq
    exact ⟨rfl, fun c hc => (List.mem_filter.mp hc).1⟩
  · rw [if_neg h] at heq
    subst heq
    exact ⟨rfl, fun c hc => hc⟩

theorem removeJoinedBundle_clears (ents : List EcsEntity) (ev : DisconnectEvent)
    (en : EcsEntity) (hen : en ∈ removeJoinedBundle ents ev)
    (hid : en.id = ev.entity) : ∀ c ∈ JoinedClientBundle, c ∉ en.components := by
  rw [removeJoinedBundle, List.mem_map] at hen
  obtain ⟨en0, _, heq⟩ := hen
  by_cases h : en0.id = ev.entity
  · rw [if_pos h] at heq
    subst heq
    intro c hc hmem
    have hdec := (List.mem_filter.mp hmem).2
    simp only [decide_eq_true_eq] at hdec
    exact hdec hc
  · rw [if_neg h] at heq
    subst heq
    exact absurd hid h

theorem foldl_removeJoinedBundle_mem :
    ∀ (events : List DisconnectEvent) (ents : List EcsEntity) (en : EcsEntity),
      en ∈ events.foldl removeJoinedBundle ents →
      ∃ en0 ∈ ents, en.id = en0.id ∧ ∀ c ∈ en.components, c ∈ en0.components := by
  intro events
  induction events with
  | nil =>
    intro ents en hen
    exact ⟨en, hen, rfl, fun c hc => hc⟩
  | cons ev0 evs ih =>
    intro ents en hen
    rw [List.foldl_cons] at hen
    obtain ⟨en1, hen1, hid1, hsub1⟩ := ih (removeJoinedBundle ents ev0) en hen
    obtain ⟨en0, hen0, hid0, hsub0⟩ := removeJoinedBundle_mem ents ev0 en1 hen1
    exact ⟨en0, hen0, hid1.trans hid0, fun c hc => hsub0 c (hsub1 c hc)⟩

theorem foldl_removeJoinedBundle_clears :
    ∀ (events : List DisconnectEvent) (ents : List EcsEntity)
      (ev : DisconnectEvent), ev ∈ events → ∀ en : EcsEntity,
      en ∈ events.foldl removeJoinedBundle ents → en.id = ev.entity →
      ∀ c ∈ JoinedClientBundle, c ∉ en.components := by
  intro events
  induction events with
  | nil =>
    intro ents ev hev
    cases hev
  | cons ev0 evs ih =>
    intro ents ev hev en hen hid c hc hmem
    rw [List.foldl_cons] at hen
    rcases List.mem_cons.mp hev with heq | hev2
    · subst heq
      obtain ⟨en1, hen1, hid1, hsub1⟩ :=
        foldl_removeJoinedBundle_mem evs (removeJoinedBundle ents ev) en hen
      exact removeJoinedBundle_clears ents ev en1 hen1 (hid1.symm.trans hid)
        c hc (hsub1 c hmem)
    · exact ih (removeJoinedBundle ents ev0) ev hev2 en hen hid c hc hmem

/-- C8: after a DisconnectEvent has been sent for an entity, one pass of the
chained PostUpdate disconnect systems leaves that entity with none of the
JoinedClientBundle components. -/
theorem disconnect_event_removes_bundle_in_one_pass
    (pending : List DisconnectEvent) (entities : List EcsEntity)
    (ev : DisconnectEvent) (hev : ev ∈ pending) (en : EcsEntity)
    (hen : en ∈ (disconnectPostUpdatePass pending entities).1)
    (hid : en.id = ev.entity) : ∀ c ∈ JoinedClientBundle, c ∉ en.components := by
  have hen2 : en ∈ (pending ++ disconnect_on_connection_dead
      (update_read_packets_task_running_component entities)).foldl
        removeJoinedBundle
        (update_read_packets_task_running_component entities) := by
    simpa [disconnectPostUpdatePass,
      remove_components_from_disconnected_players] using hen
  exact foldl_removeJoinedBundle_clears _ _ ev (List.mem_append_left _ hev)
    en hen2 hid

/-- C8 witness: a pending DisconnectEvent for an entity carrying the full
JoinedClientBundle strips the bundle within the pass. -/
theorem disconnect_event_removes_bundle_witness :
    GameComponent.instanceHolder ∉ (EcsEntity.mk 5 [] none none false).components :=
  disconnect_event_removes_bundle_in_one_pass [⟨5⟩]
    [⟨5, JoinedClientBundle, none, none, false⟩] ⟨5⟩ (by decide)
    (EcsEntity.mk 5 [] none none false) (by decide) rfl
    GameComponent.instanceHolder (by decide)

theorem CardinalDirection.mem_iter (dir : CardinalDirection) :
    dir ∈ CardinalDirection.iter := by
  cases dir <;> simp [CardinalDirection.iter]

theorem fall_distance_sound (pos : BlockPos) (world : Instance) (k : Nat)
    (hk1 : 1 ≤ k) (hk2 : k ≤ fall_distance pos world) :
    is_block_passable (pos.down k) world = true := by
  rw [fall_distance] at hk2
  rcases h1 : is_block_passable (pos.down 1) world with _ | _ <;>
    rcases h2 : is_block_passable (pos.down 2) world with _ | _ <;>
      rcases h3 : is_block_passable (pos.down 3) world with _ | _ <;>
        rcases h4 : is_block_passable (pos.down 4) world with _ | _ <;>
          simp_all <;>
          (interval_cases k <;> simp_all)

theorem fall_distance_stop (pos : BlockPos) (world : Instance) (d : Nat)
    (hd : fall_distance pos world = d) (hlt : d ≤ 3) :
    is_block_passable (pos.down (d + 1)) world = false := by
  rw [fall_distance] at hd
  subst hd
  rcases h1 : is_block_passable (pos.down 1) world with _ | _ <;>
    rcases h2 : is_block_passable (pos.down 2) world with _ | _ <;>
      rcases h3 : is_block_passable (pos.down 3) world with _ | _ <;>
        rcases h4 : is_block_passable (pos.down 4) world with _ | _ <;>
          simp_all

theorem fall_distance_complete (pos : BlockPos) (world : Instance) (d : Nat)
    (hd : d ≤ 3)
    (hcol : ∀ k, 1 ≤ k → k ≤ d → is_block_passable (pos.down k) world = true)
    (hstop : is_block_passable (pos.down (d + 1)) world = false) :
    fall_distance pos world = d := by
  rw [fall_distance]
  interval_cases d
  · simp [hstop]
  · have p1 := hcol 1 (by omega) (by omega)
    simp [p1, hstop]
  · have p1 := hcol 1 (by omega) (by omega)
    have p2 := hcol 2 (by omega) (by omega)
    simp [p1, p2, hstop]
  · have p1 := hcol 1 (by omega) (by omega)
    have p2 := hcol 2 (by omega) (by omega)
    have p3 := hcol 3 (by omega) (by omega)
    simp [p1, p2, p3, hstop]

theorem descend_edge_eq_some_iff (costs : Costs) (world : Instance)
    (pos : BlockPos) (dir : CardinalDirection) (e : Edge) :
    descend_edge costs world pos dir = some e ↔
      ∃ d : Nat, 1 ≤ d ∧ d ≤ 3 ∧
        (∀ k, 1 ≤ k → k ≤ d →
          is_block_passable ((pos + (⟨dir.x, 0, dir.z⟩ : BlockPos)).down k)
            world = true) ∧
        is_block_passable ((pos + (⟨dir.x, 0, dir.z⟩ : BlockPos)).down (d + 1))
          world = false ∧
        is_passable (pos + (⟨dir.x, 0, dir.z⟩ : BlockPos)) world = true ∧
        is_standable ((pos + (⟨dir.x, 0, dir.z⟩ : BlockPos)).down d)
          world = true ∧
        e = { movement :=
                { target := (pos + (⟨dir.x, 0, dir.z⟩ : BlockPos)).down d,
                  data := { execute := execute_descend_move,
                            is_reached := descend_is_reached } },
              cost := costs.SPRINT_ONE_BLOCK_COST +
                costs.FALL_ONE_BLOCK_COST * d } := by
  rw [descend_edge]
  constructor
  · intro h
    by_cases hfd : fall_distance (pos + (⟨dir.x, 0, dir.z⟩ : BlockPos)) world = 0 ∨
        fall_distance (pos + (⟨dir.x, 0, dir.z⟩ : BlockPos)) world > 3
    · rw [if_pos hfd] at h
      cases h
    · rw [if_neg hfd] at h
      push_neg at hfd
      by_cases hp : is_passable (pos + (⟨dir.x, 0, dir.z⟩ : BlockPos)) world = true
      · rw [if_neg (by simp [hp])] at h
        by_cases hs : is_standable ((pos + (⟨dir.x, 0, dir.z⟩ : BlockPos)).down
            (fall_distance (pos + (⟨dir.x, 0, dir.z⟩ : BlockPos)) world))
            world = true
        · rw [if_neg (by simp [hs])] at h
          injection h with h
          refine ⟨fall_distance (pos + (⟨dir.x, 0, dir.z⟩ : BlockPos)) world,
            by omega, by omega, ?_, ?_, hp, hs, h.symm⟩
          · intro k hk1 hk2
            exact fall_distance_sound _ world k hk1 hk2
          · exact fall_distance_stop _ world _ rfl (by omega)
        · rw [if_pos (by simpa using hs)] at h
          cases h
      · rw [if_pos (by simpa using hp)] at h
        cases h
  · rintro ⟨d, hd1, hd3, hcol, hstop, hp, hs, he⟩
    have hfd : fall_distance (pos + (⟨dir.x, 0, dir.z⟩ : BlockPos)) world = d :=
      fall_distance_complete _ world d hd3 hcol hstop
    rw [hfd, if_neg (by omega), if_neg (by simp [hp]), if_neg (by simp [hs]), he]

/-- C2: descend_move produces, per cardinal direction, exactly one edge when
the fall distance d below the offset position is between 1 and 3 (the blocks
strictly below the offset position down to the landing are passable and the
next one is not), the offset column is passable and the landing position is
standable; the edge targets the landing position and costs
SPRINT_ONE_BLOCK_COST + FALL_ONE_BLOCK_COST * d. -/
theorem descend_move_spec (costs : Costs) (world : Instance) (pos : BlockPos)
    (e : Edge) :
    e ∈ descend_move costs world pos ↔
      ∃ dir : CardinalDirection, ∃ d : Nat, 1 ≤ d ∧ d ≤ 3 ∧
        (∀ k, 1 ≤ k → k ≤ d →
          is_block_passable ((pos + (⟨dir.x, 0, dir.z⟩ : BlockPos)).down k)
            world = true) ∧
        is_block_passable ((pos + (⟨dir.x, 0, dir.z⟩ : BlockPos)).down (d + 1))
          world = false ∧
        is_passable (pos + (⟨dir.x, 0, dir.z⟩ : BlockPos)) world = true ∧
        is_standable ((pos + (⟨dir.x, 0, dir.z⟩ : BlockPos)).down d)
          world = true ∧
        e = { movement :=
                { target := (pos + (⟨dir.x, 0, dir.z⟩ : BlockPos)).down d,
                  data := { execute := execute_descend_move,
                            is_reached := descend_is_reached } },
              cost := costs.SPRINT_ONE_BLOCK_COST +
                costs.FALL_ONE_BLOCK_COST * d } := by
  rw [descend_move, List.mem_filterMap]
  constructor
  · rintro ⟨dir, _, hdir⟩
    exact ⟨dir, (descend_edge_eq_some_iff costs world pos dir e).mp hdir⟩
  · rintro ⟨dir, hd⟩
    exact ⟨dir, CardinalDirection.mem_iter dir,
      (descend_edge_eq_some_iff costs world pos dir e).mpr hd⟩

theorem diagonal_edge_eq_some_iff (costs : Costs) (world : Instance)
    (pos : BlockPos) (dir : CardinalDirection) (e : Edge) :
    diagonal_edge costs world pos dir = some e ↔
      (is_passable (⟨pos.x + dir.x, pos.y, pos.z + dir.z⟩ : BlockPos) world = true ∨
        is_passable (⟨pos.x + dir.right.x, pos.y, pos.z + dir.right.z⟩ : BlockPos)
          world = true) ∧
      is_standable (pos + (⟨dir.x + dir.right.x, 0, dir.z + dir.right.z⟩ : BlockPos))
        world = true ∧
      e = { movement :=
              { target := pos + (⟨dir.x + dir.right.x, 0, dir.z + dir.right.z⟩ : BlockPos),
                data := { execute := execute_diagonal_move,
                          is_reached := default_is_reached } },
            cost := costs.SPRINT_ONE_BLOCK_COST * SQRT_2 + 0.001 } := by
  rw [diagonal_edge]
  constructor
  · intro h
    by_cases hcard : ¬ is_passable (⟨pos.x + dir.x, pos.y, pos.z + dir.z⟩ : BlockPos)
          world = true ∧
        ¬ is_passable (⟨pos.x + dir.right.x, pos.y, pos.z + dir.right.z⟩ : BlockPos)
          world = true
    · rw [if_pos hcard] at h
      cases h
    · rw [if_neg hcard] at h
      by_cases hs : is_standable
          (pos + (⟨dir.x + dir.right.x, 0, dir.z + dir.right.z⟩ : BlockPos))
          world = true
      · rw [if_neg (by simp [hs])] at h
        injection h with h
        push_neg at hcard
        refine ⟨?_, hs, h.symm⟩
        by_cases h1 : is_passable (⟨pos.x + dir.x, pos.y, pos.z + dir.z⟩ : BlockPos)
            world = true
        · exact Or.inl h1
        · exact Or.inr (hcard h1)
      · rw [if_pos (by simpa using hs)] at h
        cases h
  · rintro ⟨hcard, hs, he⟩
    rw [if_neg (by rintro ⟨ha, hb⟩; rcases hcard with h | h; exacts [ha h, hb h]),
      if_neg (by simp [hs]), he]

/-- C6: diagonal_move produces, per corner offset, exactly one edge when at
least one of the two adjacent cardinal positions is passable and the corner
target is standable; the edge costs SPRINT_ONE_BLOCK_COST * SQRT_2 + 0.001. -/
theorem diagonal_move_spec (costs : Costs) (world : Instance) (pos : BlockPos)
    (e : Edge) :
    e ∈ diagonal_move costs world pos ↔
      ∃ dir : CardinalDirection,
        (is_passable (⟨pos.x + dir.x, pos.y, pos.z + dir.z⟩ : BlockPos) world = true ∨
          is_passable (⟨pos.x + dir.right.x, pos.y, pos.z + dir.right.z⟩ : BlockPos)
            world = true) ∧
        is_standable (pos + (⟨dir.x + dir.right.x, 0, dir.z + dir.right.z⟩ : BlockPos))
          world = true ∧
        e = { movement :=
                { target := pos +
                    (⟨dir.x + dir.right.x, 0, dir.z + dir.right.z⟩ : BlockPos),
                  data := { execute := execute_diagonal_move,
                            is_reached := default_is_reached } },
              cost := costs.SPRINT_ONE_BLOCK_COST * SQRT_2 + 0.001 } := by
  rw [diagonal_move, List.mem_filterMap]
  constructor
  · rintro ⟨dir, _, hdir⟩
    exact ⟨dir, (diagonal_edge_eq_some_iff costs world pos dir e).mp hdir⟩
  · rintro ⟨dir, hd⟩
    exact ⟨dir, CardinalDirection.mem_iter dir,
      (diagonal_edge_eq_some_iff costs world pos dir e).mpr hd⟩

end Azalea
